import Mathlib

/-
Verification of the ABC/XYZ inventory classification engine
(src/abc_rep_clean.py) against its specification.

The engine's numeric pipeline runs on pandas float64 columns.  We embed the
values as `FVal`: a rational number, a quiet NaN, or a signed infinity.
Rounding is not modelled; every property below depends only on the ordering
of the values and on the NaN/infinity propagation rules of IEEE arithmetic,
which `fle` and `fdiv` capture.
-/

namespace ABCRep

/-- Surrogate for a pandas float64 cell: a finite rational, NaN, or ±∞. -/
inductive FVal where
  | nan : FVal
  | ninf : FVal
  | num : ℚ → FVal
  | inf : FVal
deriving DecidableEq

/-- The Python comparison `x <= t` against a finite literal threshold `t`:
NaN and +∞ compare false, -∞ compares true. -/
def fle : FVal → ℚ → Bool
  | .nan, _ => false
  | .ninf, _ => true
  | .inf, _ => false
  | .num q, t => decide (q ≤ t)

/-- IEEE division on the surrogate values: a NaN operand propagates,
x/0 is NaN for x = 0 and ±∞ otherwise (0 behaves as +0). -/
def fdiv : FVal → FVal → FVal
  | .nan, _ => .nan
  | _, .nan => .nan
  | .num a, .num b =>
      if b = 0 then (if a = 0 then .nan else if 0 < a then .inf else .ninf)
      else .num (a / b)
  | .inf, .num b => if 0 ≤ b then .inf else .ninf
  | .ninf, .num b => if 0 ≤ b then .ninf else .inf
  | .num _, .inf => .num 0
  | .num _, .ninf => .num 0
  | .inf, .inf => .nan
  | .inf, .ninf => .nan
  | .ninf, .inf => .nan
  | .ninf, .ninf => .nan

/-- `Series.fillna(0)`: NaN becomes 0, everything else is kept. -/
def fillna0 : FVal → FVal
  | .nan => .num 0
  | v => v

/-- `Series.replace(0, np.nan)`: an exact 0 becomes NaN. -/
def replaceZeroWithNaN : FVal → FVal
  | .num q => if q = 0 then .nan else .num q
  | v => v

/-- Line 58: `lambda x: "A" if x <= 0.7 else ("B" if x <= 0.9 else "C")`. -/
def abcLabel (x : FVal) : String :=
  if fle x (7/10) then "A" else if fle x (9/10) then "B" else "C"

/-- Line 66: `lambda c: "X" if c <= 0.5 else ("Y" if c <= 1.0 else "Z")`. -/
def xyzLabel (c : FVal) : String :=
  if fle c (1/2) then "X" else if fle c 1 then "Y" else "Z"

/-- `Series.cumsum` on the sales column: running prefix sums. -/
def cumsum : List ℚ → List ℚ
  | [] => []
  | x :: xs => x :: (cumsum xs).map (fun c => x + c)

/-- Line 57: `agg["cum_pct"] = agg["sales"].cumsum() / agg["sales"].sum()`,
applied to the (already sorted) sales column. -/
def cum_pct (sales : List ℚ) : List FVal :=
  (cumsum sales).map (fun c => fdiv (.num c) (.num sales.sum))

/-- Line 58 applied columnwise: the ABC column of the aggregate table. -/
def abcColumn (sales : List ℚ) : List String :=
  (cum_pct sales).map abcLabel

/-- Arithmetic mean of one pivot row (an item's monthly quantity series). -/
def mean (xs : List ℚ) : ℚ :=
  xs.sum / xs.length

/-- `pivot.mean(axis=1)` on one row: NaN on an empty row, else the mean. -/
def meanF (xs : List ℚ) : FVal :=
  if xs.length = 0 then .nan else .num (mean xs)

/-- Rational stand-in for the floating-point square root: exact on every
rational that is a square of a rational (in particular at 0, the only point
where the development below evaluates it). -/
def ratSqrt (q : ℚ) : ℚ :=
  (Nat.sqrt q.num.toNat : ℚ) / (Nat.sqrt q.den : ℚ)

/-- Sample variance with the `ddof=1` convention used by `Series.std`. -/
def sampleVar (xs : List ℚ) : ℚ :=
  (xs.map (fun x => (x - mean xs) ^ 2)).sum / ((xs.length : ℚ) - 1)

/-- `pivot.std(axis=1)` on one row: with `ddof=1` a row of fewer than two
observations has no defined standard deviation (NaN), otherwise the square
root of the sample variance. -/
def sampleStd (xs : List ℚ) : FVal :=
  if xs.length ≤ 1 then .nan else .num (ratSqrt (sampleVar xs))

/-- Lines 63-64: `cv = pivot.std(axis=1) / (pivot.mean(axis=1).replace(0,
np.nan))` followed by `cv = cv.fillna(0)`, for one item's pivot row. -/
def cvOf (xs : List ℚ) : FVal :=
  fillna0 (fdiv (sampleStd xs) (replaceZeroWithNaN (meanF xs)))

/-- Line 65: `agg = agg.join(cv.rename("CV"), on="item_id")` — a left join;
an item_id absent from the CV series index receives NaN. -/
def joinCV (cvTable : List (String × FVal)) (itemId : String) : FVal :=
  match cvTable.lookup itemId with
  | some v => v
  | none => .nan

/-- Lines 76-86: the static replenishment policy dict. -/
def replenishment_rules : List (String × String) :=
  [("A/X", "Reorder weekly with tight safety stock control."),
   ("A/Y", "Reorder bi-weekly using smoothed demand forecast."),
   ("A/Z", "Manual review monthly with cautious reorder quantity."),
   ("B/X", "Reorder bi-weekly with fixed reorder point."),
   ("B/Y", "Monitor monthly; reorder with buffer stock."),
   ("B/Z", "Review quarterly with manual override."),
   ("C/X", "Low-priority reorder, maintain minimum stock."),
   ("C/Y", "Replenish only with demand signal."),
   ("C/Z", "Do not replenish unless justified by exception.")]

/-- Line 88: `filtered_agg["ABC_XYZ"].map(replenishment_rules)` — a
dict-based `Series.map`, which yields a missing value (NaN) for any key
absent from the dict instead of raising. -/
def mapReplenishment (seg : String) : Option String :=
  replenishment_rules.lookup seg

/-- The nine well-formed segment values. -/
def nineSegments : List String :=
  ["A/X", "A/Y", "A/Z", "B/X", "B/Y", "B/Z", "C/X", "C/Y", "C/Z"]

/-- One row of the fully classified aggregate table (line 67 state). -/
structure ClassifiedRow where
  item_id : String
  description : String
  sales : ℚ
  qty : ℚ
  cumPct : FVal
  ABC : String
  CV : FVal
  XYZ : String
  ABC_XYZ : String
deriving DecidableEq

/-- Line 72: `filtered_agg = agg[agg["ABC_XYZ"].isin(selected_abcxyz)]`. -/
def segmentFilter (selected : List String) (agg : List ClassifiedRow) :
    List ClassifiedRow :=
  agg.filter (fun r => selected.contains r.ABC_XYZ)

/-- A concrete classified row used to instantiate universally quantified
results on explicit inputs. -/
def sampleRow : ClassifiedRow :=
  { item_id := "I1", description := "widget", sales := 700, qty := 10,
    cumPct := .num (7/10), ABC := "A", CV := .num 0, XYZ := "X",
    ABC_XYZ := "A/X" }

/-- Line 30: `required_cols = {"item_id", "description", "sales", "qty",
"date"}`. -/
def required_cols : List String :=
  ["item_id", "description", "sales", "qty", "date"]

/-- Line 31: `required_cols.issubset(df.columns)`. -/
def hasRequiredCols (cols : List String) : Bool :=
  required_cols.all (fun c => cols.contains c)

/-- Line 37: the ordered candidate names for the category column. -/
def categoryCandidates : List String :=
  ["category", "Category", "group", "Group", "description"]

/-- Lines 36-40: the first candidate column name present in the input
becomes the category column. -/
def category_col (cols : List String) : Option String :=
  categoryCandidates.find? (fun c => cols.contains c)

/-! ### Helper lemmas about the embedded operations -/

lemma cumsum_length (s : List ℚ) : (cumsum s).length = s.length := by
  induction s with
  | nil => rfl
  | cons x xs ih => simp [cumsum, ih]

lemma cumsum_all_zero (s : List ℚ) (h : ∀ a ∈ s, a = 0) :
    ∀ c ∈ cumsum s, c = 0 := by
  induction s with
  | nil => simp [cumsum]
  | cons x xs ih =>
    intro c hc
    have hx : x = 0 := h x (by simp)
    simp only [cumsum, List.mem_cons, List.mem_map] at hc
    rcases hc with rfl | ⟨a, ha, rfl⟩
    · exact hx
    · have ha0 : a = 0 := ih (fun b hb => h b (by simp [hb])) a ha
      rw [hx, ha0, add_zero]

lemma chain'_cumsum (s : List ℚ) (h : ∀ a ∈ s, 0 ≤ a) :
    List.Chain' (· ≤ ·) (cumsum s) := by
  induction s with
  | nil => simp [cumsum]
  | cons x xs ih =>
    rw [cumsum, List.chain'_cons']
    refine ⟨?_, ?_⟩
    · intro y hy
      cases xs with
      | nil => simp [cumsum] at hy
      | cons z zs =>
        simp only [cumsum, List.map_cons, List.head?_cons, Option.mem_def,
          Option.some.injEq] at hy
        have hz : 0 ≤ z := h z (by simp)
        linarith [hy]
    · rw [List.chain'_map]
      exact (ih (fun a ha => h a (by simp [ha]))).imp
        (fun a b hab => by linarith)

lemma getLast?_cons_of_ne_nil {α : Type} (a : α) (l : List α) (h : l ≠ []) :
    (a :: l).getLast? = l.getLast? := by
  cases l with
  | nil => exact absurd rfl h
  | cons b m => exact List.getLast?_cons_cons

lemma cumsum_getLast? (s : List ℚ) (h : s ≠ []) :
    (cumsum s).getLast? = some s.sum := by
  induction s with
  | nil => exact absurd rfl h
  | cons x xs ih =>
    cases xs with
    | nil => simp [cumsum]
    | cons y ys =>
      rw [cumsum, getLast?_cons_of_ne_nil _ _ (by simp [cumsum]),
        List.getLast?_map, ih (by simp)]
      simp

lemma mean_replicate (n : ℕ) (c : ℚ) (hn : n ≠ 0) :
    mean (List.replicate n c) = c := by
  unfold mean
  rw [List.length_replicate, List.sum_replicate, nsmul_eq_mul]
  exact mul_div_cancel_left₀ c (Nat.cast_ne_zero.mpr hn)

lemma sampleVar_replicate (n : ℕ) (c : ℚ) (hn : n ≠ 0) :
    sampleVar (List.replicate n c) = 0 := by
  unfold sampleVar
  rw [mean_replicate n c hn, List.map_replicate]
  simp

lemma ratSqrt_zero : ratSqrt 0 = 0 := by
  norm_num [ratSqrt]

lemma cvOf_replicate (n : ℕ) (c : ℚ) (hn : 1 ≤ n) (hc : c ≠ 0) :
    cvOf (List.replicate n c) = .num 0 := by
  have hn0 : n ≠ 0 := by omega
  have hmean : meanF (List.replicate n c) = .num c := by
    simp [meanF, hn0, mean_replicate n c hn0]
  by_cases h1 : n ≤ 1
  · have hstd : sampleStd (List.replicate n c) = .nan := by
      simp [sampleStd, h1]
    simp [cvOf, hstd, hmean, replaceZeroWithNaN, hc, fdiv, fillna0]
  · have hstd : sampleStd (List.replicate n c) = .num 0 := by
      simp [sampleStd, h1, sampleVar_replicate n c hn0, ratSqrt_zero]
    simp [cvOf, hstd, hmean, replaceZeroWithNaN, hc, fdiv, fillna0]

lemma lookup_eq_none_of_not_mem_keys {β : Type} (l : List (String × β))
    (a : String) (h : a ∉ l.map Prod.fst) : List.lookup a l = none := by
  induction l with
  | nil => rfl
  | cons p l ih =>
    obtain ⟨k, v⟩ := p
    simp only [List.map_cons, List.mem_cons, not_or] at h
    rw [List.lookup_cons]
    have hk : (a == k) = false := beq_eq_false_iff_ne.mpr h.1
    rw [hk]
    exact ih h.2

/-! ### Claim theorems -/

/-- C1: the ABC label is a total function of the cumulative sales fraction
with closed upper bounds: "A" for x ≤ 0.70, "B" for 0.70 < x ≤ 0.90, "C"
otherwise; in particular a fraction of exactly 0.70 yields "A" and exactly
0.90 yields "B". -/
theorem abc_threshold_total :
    (∀ q : ℚ, q ≤ 7/10 → abcLabel (.num q) = "A")
    ∧ (∀ q : ℚ, 7/10 < q → q ≤ 9/10 → abcLabel (.num q) = "B")
    ∧ (∀ q : ℚ, 9/10 < q → abcLabel (.num q) = "C")
    ∧ abcLabel (.num (7/10)) = "A" ∧ abcLabel (.num (9/10)) = "B" := by
  refine ⟨fun q h => ?_, fun q h1 h2 => ?_, fun q h => ?_, ?_, ?_⟩
  · simp [abcLabel, fle, h]
  · have h1' : ¬ q ≤ 7/10 := not_le.mpr h1
    simp [abcLabel, fle, h1', h2]
  · have h7 : ¬ q ≤ 7/10 := not_le.mpr (lt_trans (by norm_num) h)
    have h9 : ¬ q ≤ 9/10 := not_le.mpr h
    simp [abcLabel, fle, h7, h9]
  · norm_num [abcLabel, fle]
  · norm_num [abcLabel, fle]

/-- Witness: the three ABC bands at the concrete fractions 1/2, 4/5, 1. -/
theorem abc_threshold_total_witness :
    abcLabel (.num (1/2)) = "A" ∧ abcLabel (.num (4/5)) = "B"
    ∧ abcLabel (.num 1) = "C" :=
  ⟨abc_threshold_total.1 (1/2) (by norm_num),
   abc_threshold_total.2.1 (4/5) (by norm_num) (by norm_num),
   abc_threshold_total.2.2.1 1 (by norm_num)⟩

/-- C2: the XYZ label is a total function of the coefficient of variation
with closed upper bounds ("X" for c ≤ 0.5, "Y" for 0.5 < c ≤ 1, "Z"
otherwise), and an item whose monthly quantity is the constant non-zero
value c across all observed months gets CV = 0, hence label "X". -/
theorem xyz_threshold_total_and_constant_cv :
    (∀ q : ℚ, q ≤ 1/2 → xyzLabel (.num q) = "X")
    ∧ (∀ q : ℚ, 1/2 < q → q ≤ 1 → xyzLabel (.num q) = "Y")
    ∧ (∀ q : ℚ, 1 < q → xyzLabel (.num q) = "Z")
    ∧ (∀ (n : ℕ) (c : ℚ), 1 ≤ n → c ≠ 0 →
        cvOf (List.replicate n c) = .num 0
        ∧ xyzLabel (cvOf (List.replicate n c)) = "X") := by
  refine ⟨fun q h => ?_, fun q h1 h2 => ?_, fun q h => ?_, fun n c hn hc => ?_⟩
  · simp only [xyzLabel, fle, decide_eq_true_eq]
    rw [if_pos h]
  · simp only [xyzLabel, fle, decide_eq_true_eq]
    rw [if_neg (not_le.mpr h1), if_pos h2]
  · simp only [xyzLabel, fle, decide_eq_true_eq]
    rw [if_neg (not_le.mpr (lt_trans (by norm_num) h)), if_neg (not_le.mpr h)]
  · have h0 := cvOf_replicate n c hn hc
    refine ⟨h0, ?_⟩
    rw [h0]
    norm_num [xyzLabel, fle]

/-- Witness: the three XYZ bands at 1/4, 3/4, 2, and a three-month constant
series of quantity 10 with CV = 0. -/
theorem xyz_threshold_total_and_constant_cv_witness :
    xyzLabel (.num (1/4)) = "X" ∧ xyzLabel (.num (3/4)) = "Y"
    ∧ xyzLabel (.num 2) = "Z" ∧ cvOf (List.replicate 3 (10:ℚ)) = .num 0 :=
  ⟨xyz_threshold_total_and_constant_cv.1 (1/4) (by norm_num),
   xyz_threshold_total_and_constant_cv.2.1 (3/4) (by norm_num) (by norm_num),
   xyz_threshold_total_and_constant_cv.2.2.1 2 (by norm_num),
   (xyz_threshold_total_and_constant_cv.2.2.2 3 10 (by norm_num)
     (by norm_num)).1⟩

/-- C4: the Policy Resolver returns exactly the literal advice string of the
fixed nine-entry table for each of the nine segments. -/
theorem replenishment_table_exact :
    mapReplenishment "A/X" = some "Reorder weekly with tight safety stock control."
    ∧ mapReplenishment "A/Y" = some "Reorder bi-weekly using smoothed demand forecast."
    ∧ mapReplenishment "A/Z" = some "Manual review monthly with cautious reorder quantity."
    ∧ mapReplenishment "B/X" = some "Reorder bi-weekly with fixed reorder point."
    ∧ mapReplenishment "B/Y" = some "Monitor monthly; reorder with buffer stock."
    ∧ mapReplenishment "B/Z" = some "Review quarterly with manual override."
    ∧ mapReplenishment "C/X" = some "Low-priority reorder, maintain minimum stock."
    ∧ mapReplenishment "C/Y" = some "Replenish only with demand signal."
    ∧ mapReplenishment "C/Z" = some "Do not replenish unless justified by exception." :=
  ⟨rfl, rfl, rfl, rfl, rfl, rfl, rfl, rfl, rfl⟩

/-- C3 counterexample: the normalizer coerces sales numerically but never
sign-checks them, so the sales column [5, -2] (already in descending order,
grand total 3 > 0) is accepted and produces the strictly decreasing cum_pct
sequence [5/3, 1]. -/
theorem cum_pct_not_monotone_counterexample :
    (0 : ℚ) < ([5, -2] : List ℚ).sum
    ∧ List.Sorted (· ≥ ·) ([5, -2] : List ℚ)
    ∧ cum_pct ([5, -2] : List ℚ) = [.num (5/3), .num 1]
    ∧ ¬ List.Chain' (· ≤ ·) ((cumsum ([5, -2] : List ℚ)).map
        (fun c => c / ([5, -2] : List ℚ).sum)) := by
  refine ⟨by norm_num, by decide, ?_, ?_⟩
  · norm_num [cum_pct, cumsum, fdiv]
  · simp only [cumsum, List.map_cons, List.map_nil, List.chain'_cons,
      List.chain'_singleton, and_true]
    norm_num

/-- C3 (amended): for a non-empty sales column of NON-NEGATIVE values with
strictly positive grand total, taken in the engine's descending order, the
cum_pct entries are the finite fractions cumsum/total, the sequence is
monotonically non-decreasing, and its last entry is exactly 1.  (The code
does not enforce non-negative sales; without that assumption monotonicity
fails, as the counterexample shows.) -/
theorem cum_pct_monotone_last_one (s : List ℚ) (hne : s ≠ [])
    (hnn : ∀ a ∈ s, 0 ≤ a) (hpos : 0 < s.sum)
    (_hsorted : List.Sorted (· ≥ ·) s) :
    cum_pct s = (cumsum s).map (fun c => .num (c / s.sum))
    ∧ List.Chain' (· ≤ ·) ((cumsum s).map (fun c => c / s.sum))
    ∧ ((cumsum s).map (fun c => c / s.sum)).getLast? = some 1 := by
  have hsne : s.sum ≠ 0 := ne_of_gt hpos
  refine ⟨?_, ?_, ?_⟩
  · unfold cum_pct
    have hfun : (fun c => fdiv (.num c) (.num s.sum)) =
        (fun c => FVal.num (c / s.sum)) := by
      funext c
      simp [fdiv, hsne]
    rw [hfun]
  · rw [List.chain'_map]
    refine (chain'_cumsum s hnn).imp (fun a b hab => ?_)
    rw [div_eq_mul_inv, div_eq_mul_inv]
    exact mul_le_mul_of_nonneg_right hab (inv_nonneg.mpr hpos.le)
  · rw [List.getLast?_map, cumsum_getLast? s hne]
    simp [div_self hsne]

/-- Witness: the amended C3 statement at the concrete sales column
[7, 2, 1], whose last cumulative fraction is 1. -/
theorem cum_pct_monotone_last_one_witness :
    ((cumsum ([7, 2, 1] : List ℚ)).map
      (fun c => c / ([7, 2, 1] : List ℚ).sum)).getLast? = some 1 :=
  (cum_pct_monotone_last_one [7, 2, 1] (by simp) (by decide) (by norm_num)
    (by decide)).2.2

/-- C5: when every item's sales is 0 the grand total is 0, each cum_pct cell
is the NaN produced by the 0/0 division (no exception is raised: `fdiv` and
the label lambdas are total), and the ABC lambda sends every row to "C",
since NaN fails both threshold comparisons. -/
theorem zero_sales_all_label_C (s : List ℚ) (h : ∀ a ∈ s, a = 0) :
    abcColumn s = List.replicate s.length "C" := by
  rw [List.eq_replicate_iff]
  constructor
  · simp [abcColumn, cum_pct, cumsum_length]
  · intro b hb
    simp only [abcColumn, cum_pct, List.map_map, List.mem_map,
      Function.comp] at hb
    obtain ⟨c, hc, rfl⟩ := hb
    have hc0 : c = 0 := cumsum_all_zero s h c hc
    have hs0 : s.sum = 0 := List.sum_eq_zero h
    simp [hc0, hs0, fdiv, abcLabel, fle]

/-- Witness: three items, each with zero sales, all classified "C". -/
theorem zero_sales_all_label_C_witness :
    abcColumn ([0, 0, 0] : List ℚ) =
      List.replicate ([0, 0, 0] : List ℚ).length "C" :=
  zero_sales_all_label_C [0, 0, 0] (by decide)

/-- C6 counterexample: an item_id ("I1") present in the aggregate but absent
from the CV series does NOT get CV = 0 and label "X": the left join hands it
NaN (the `fillna(0)` at line 64 runs before the join at line 65), and the
XYZ lambda sends NaN to "Z". -/
theorem join_missing_cv_counterexample :
    joinCV [("I2", .num 0)] "I1" ≠ .num 0
    ∧ xyzLabel (joinCV [("I2", .num 0)] "I1") = "Z" := by
  refine ⟨?_, rfl⟩
  intro h
  simp [joinCV, List.lookup] at h

/-- C6 (amended): an item_id absent from the CV series receives CV = NaN
from the left join — not the CV = 0 fallback, which is applied before the
join — and consequently gets xyz_label "Z", because NaN fails both
threshold comparisons. -/
theorem join_missing_cv_is_nan (tbl : List (String × FVal)) (i : String)
    (h : tbl.lookup i = none) :
    joinCV tbl i = .nan ∧ xyzLabel (joinCV tbl i) = "Z" := by
  have hj : joinCV tbl i = .nan := by
    simp [joinCV, h]
  exact ⟨hj, by rw [hj]; rfl⟩

/-- Witness: the amended C6 statement for an empty CV series. -/
theorem join_missing_cv_is_nan_witness :
    joinCV [] "I1" = .nan ∧ xyzLabel (joinCV [] "I1") = "Z" :=
  join_missing_cv_is_nan [] "I1" rfl

/-- C7 counterexample: the Policy Resolver is a dict-based `Series.map`; for
the invalid segment "A/W" it returns a missing advice value (NaN, here
`none`) instead of failing with an UnknownSegmentError. -/
theorem unknown_segment_counterexample :
    mapReplenishment "A/W" = none := rfl

/-- C7 (amended): for every segment outside the nine valid values the
dict-based map yields a missing advice value (none) — it does not raise —
and over the nine valid segments the lookup is total. -/
theorem unknown_segment_maps_to_none :
    (∀ s : String, s ∉ nineSegments → mapReplenishment s = none)
    ∧ (∀ s ∈ nineSegments, (mapReplenishment s).isSome = true) := by
  constructor
  · intro s hs
    refine lookup_eq_none_of_not_mem_keys _ s ?_
    have hkeys : replenishment_rules.map Prod.fst = nineSegments := rfl
    rw [hkeys]
    exact hs
  · intro s hs
    fin_cases hs <;> rfl

/-- Witness: the amended C7 statement at "Q/Q" (invalid) and "A/X" (valid). -/
theorem unknown_segment_maps_to_none_witness :
    mapReplenishment "Q/Q" = none ∧ (mapReplenishment "A/X").isSome = true :=
  ⟨unknown_segment_maps_to_none.1 "Q/Q" (by decide),
   unknown_segment_maps_to_none.2 "A/X" (by decide)⟩

/-- C9: segment filtering is a pure subset selection: on a classified table
(every row's segment is one of the nine values) filtering with all nine
segments returns the table unchanged, filtering with the empty selection
returns no rows, and for any selection the result is a sublist of the input
(rows are only retained or dropped, never modified). -/
theorem segment_filter_pure (t : List ClassifiedRow)
    (h : ∀ r ∈ t, r.ABC_XYZ ∈ nineSegments) :
    segmentFilter nineSegments t = t
    ∧ segmentFilter [] t = []
    ∧ ∀ sel : List String, (segmentFilter sel t).Sublist t := by
  refine ⟨?_, ?_, fun sel => List.filter_sublist t⟩
  · rw [segmentFilter, List.filter_eq_self]
    intro r hr
    simpa using h r hr
  · rw [segmentFilter, List.filter_eq_nil_iff]
    intro r _
    simp

/-- Witness: segment filtering on a concrete one-row classified table. -/
theorem segment_filter_pure_witness :
    segmentFilter nineSegments [sampleRow] = [sampleRow]
    ∧ segmentFilter [] [sampleRow] = [] :=
  ⟨(segment_filter_pure [sampleRow] (by decide)).1,
   (segment_filter_pure [sampleRow] (by decide)).2.1⟩

/-- C10: on any input that passes the required-field check, the ordered
candidate scan always resolves a category column — "description" is both
required and the final candidate — and the first candidate name present in
the input is the one selected. -/
theorem category_resolution_total (cols : List String)
    (h : hasRequiredCols cols = true) :
    (category_col cols).isSome = true
    ∧ category_col cols =
        (if cols.contains "category" then some "category"
         else if cols.contains "Category" then some "Category"
         else if cols.contains "group" then some "group"
         else if cols.contains "Group" then some "Group"
         else some "description") := by
  have hdesc : cols.contains "description" = true := by
    simp only [hasRequiredCols, required_cols, List.all_cons, List.all_nil,
      Bool.and_eq_true] at h
    exact h.2.1
  have heq : category_col cols =
      (if cols.contains "category" then some "category"
       else if cols.contains "Category" then some "Category"
       else if cols.contains "group" then some "group"
       else if cols.contains "Group" then some "Group"
       else some "description") := by
    unfold category_col categoryCandidates
    cases h1 : cols.contains "category" <;>
      cases h2 : cols.contains "Category" <;>
        cases h3 : cols.contains "group" <;>
          cases h4 : cols.contains "Group" <;>
            simp only [List.find?, h1, h2, h3, h4, hdesc, if_true, if_false,
              Bool.false_eq_true, Bool.true_eq_false, ite_true, ite_false]
  refine ⟨?_, heq⟩
  rw [heq]
  split_ifs <;> rfl

/-- Witness: the resolution on exactly the required columns selects the
fallback candidate "description". -/
theorem category_resolution_total_witness :
    (category_col required_cols).isSome = true :=
  (category_resolution_total required_cols (by decide)).1

end ABCRep
